import Mathlib

/-!
Verification of the credential-parsing and spreadsheet-assembly pipeline of
`fbdocbotx.py` (with its retained older copy `fbdocbotx_Version0.py`).
Strings are modelled as `List Char`.  The Python whitespace class (used by
`str.strip`, `str.split`, and the regex class `\s`) is modelled by its ASCII
fragment `isPySpace`; all character classes appearing in the source regexes
are ASCII, and Python uses one and the same whitespace predicate in all three
places, so the restriction is uniform.
-/

/-- Characters of the Python whitespace class (ASCII fragment): the class used
by `str.strip()`, no-argument `str.split()`, and the regex class `\s`. -/
def isPySpace (c : Char) : Bool :=
  c = ' ' || c = '\t' || c = '\n' || c = '\r' || c = '\x0b' || c = '\x0c'

/-- Characters matched by the delimiter class `[,\s]` of `SPLIT_REGEX` and of
the `has_delimiter` search. -/
def isDelim (c : Char) : Bool :=
  c = ',' || isPySpace c

/-- Embeds Python `str.strip()`: remove leading and trailing whitespace. -/
def pyStrip (l : List Char) : List Char :=
  ((l.dropWhile isPySpace).reverse.dropWhile isPySpace).reverse

/-- Helper for `splitlines`: accumulates the current line (reversed). -/
def splitlinesAux : List Char → List Char → List (List Char)
  | [], acc => if acc.isEmpty then [] else [acc.reverse]
  | '\r' :: '\n' :: rest, acc => acc.reverse :: splitlinesAux rest []
  | c :: rest, acc =>
    if c = '\n' || c = '\r' || c = '\x0b' || c = '\x0c' then
      acc.reverse :: splitlinesAux rest []
    else
      splitlinesAux rest (c :: acc)

/-- Embeds Python `str.splitlines()` (ASCII fragment): lines are separated by
`\n`, `\r\n`, `\r`, `\x0b` or `\x0c`; a trailing separator does not produce a
trailing empty line. -/
def splitlines (l : List Char) : List (List Char) :=
  splitlinesAux l []

/-- Helper for `reSplit`: `acc` is the current segment (reversed) and `inRun`
records whether the previous character was part of a delimiter run. -/
def reSplitAux : List Char → List Char → Bool → List (List Char)
  | [], acc, _ => [acc.reverse]
  | c :: rest, acc, inRun =>
    if isDelim c then
      if inRun then reSplitAux rest [] true
      else acc.reverse :: reSplitAux rest [] true
    else
      reSplitAux rest (c :: acc) false

/-- Embeds `SPLIT_REGEX.split(text)` for `SPLIT_REGEX = re.compile(r"[,\s]+")`:
the segments of `text` between maximal runs of delimiter characters, keeping
the (possibly empty) leading and trailing segments, as `re.split` does. -/
def reSplit (l : List Char) : List (List Char) :=
  reSplitAux l [] false

/-- Embeds `split_tokens` of `fbdocbotx.py`:
`[part.strip() for part in SPLIT_REGEX.split(text.strip()) if part.strip()]`. -/
def split_tokens (text : List Char) : List (List Char) :=
  (((reSplit (pyStrip text)).map pyStrip).filter (fun t => !t.isEmpty))

/-- Embeds `has_delimiter` of `fbdocbotx.py`:
`bool(re.search(r"[,\s]", raw))`. -/
def has_delimiter (raw : List Char) : Bool :=
  raw.any isDelim

/-- Helper for `splitRuns`: accumulates the current run (reversed). -/
def splitRunsAux (p : Char → Bool) : List Char → List Char → List (List Char)
  | [], acc => if acc.isEmpty then [] else [acc.reverse]
  | c :: rest, acc =>
    if p c then
      if acc.isEmpty then splitRunsAux p rest []
      else acc.reverse :: splitRunsAux p rest []
    else
      splitRunsAux p rest (c :: acc)

/-- Maximal runs of characters not satisfying `p`, in input order. -/
def splitRuns (p : Char → Bool) (l : List Char) : List (List Char) :=
  splitRunsAux p l []

/-- Embeds Python no-argument `str.split()` (as used in `ask_uid_handler`):
maximal runs of non-whitespace characters. -/
def pySplit (l : List Char) : List (List Char) :=
  splitRuns isPySpace l

/-- Embeds a full match of `UID_REGEX = re.compile(r"^[0-9]{8,20}$")`. -/
def isValidUid (s : List Char) : Bool :=
  8 ≤ s.length && s.length ≤ 20 && s.all (fun c => c.isDigit)

/-- Embeds a full match of `PASSWORD_REGEX = re.compile(r"^[^\s]{6,64}$")`. -/
def isValidPassword (s : List Char) : Bool :=
  6 ≤ s.length && s.length ≤ 64 && s.all (fun c => !isPySpace c)

/-- Reasons distinguished inside `validate_cookie`, one per message string. -/
inductive CookieErr where
  | empty
  | tooShort
  | missingKeys
  | badFormat
deriving DecidableEq

/-- Rejection reasons of the parser; each constructor stands for one of the
distinct message strings built in `fbdocbotx.py`, with the data interpolated
into the message carried as arguments. -/
inductive ParseErr where
  | insufficientLines
  | emptyUids
  | invalidUid (i : Nat) (uid : List Char)
  | emptyPasswords
  | invalidPassword (i : Nat)
  | emptyCookies
  | invalidCookie (i : Nat) (e : CookieErr)
  | countMismatch (nu np nc : Nat)
deriving DecidableEq

/-- Helper for `validate_uids`: `k` is the 1-based index of the next element,
as produced by `enumerate(uids, start=1)`. -/
def validateUidsAux (k : Nat) : List (List Char) → Option ParseErr
  | [] => none
  | u :: rest =>
    if !isValidUid u then some (.invalidUid k u)
    else validateUidsAux (k + 1) rest

/-- Embeds `validate_uids` of `fbdocbotx.py`; `none` models `(True, "")`. -/
def validate_uids (uids : List (List Char)) : Option ParseErr :=
  if uids.isEmpty then some .emptyUids
  else validateUidsAux 1 uids

/-- Helper for `validate_passwords`, 1-based index as in the source. -/
def validatePasswordsAux (k : Nat) : List (List Char) → Option ParseErr
  | [] => none
  | p :: rest =>
    if !isValidPassword p then some (.invalidPassword k)
    else validatePasswordsAux (k + 1) rest

/-- Embeds `validate_passwords` of `fbdocbotx.py`. -/
def validate_passwords (passwords : List (List Char)) : Option ParseErr :=
  if passwords.isEmpty then some .emptyPasswords
  else validatePasswordsAux 1 passwords

/-- Characters of the regex class `[A-Za-z0-9_]` (cookie keys). -/
def isWordChar (c : Char) : Bool :=
  c.isAlphanum || c = '_'

/-- Characters of the regex class `[^;=\n\r]` (cookie values). -/
def isValueChar (c : Char) : Bool :=
  !(c = ';' || c = '=' || c = '\n' || c = '\r')

/-- Parses one `[A-Za-z0-9_]+=[^;=\n\r]+` group of `COOKIE_FORMAT_REGEX`,
returning the unconsumed remainder.  Key and value are read greedily, which
is faithful because a key can only be followed by `=` (not a key character)
and a value can only be followed by `;` or by whitespace also readable as
part of the value, so greediness never loses a match of the regex. -/
def parsePair (l : List Char) : Option (List Char) :=
  let key := l.takeWhile isWordChar
  let r1 := l.dropWhile isWordChar
  if key.isEmpty then none
  else
    match r1 with
    | '=' :: r2 =>
      let v := r2.takeWhile isValueChar
      if v.isEmpty then none else some (r2.dropWhile isValueChar)
    | _ => none

/-- Matches the remainder of `COOKIE_FORMAT_REGEX` after the first pair:
`(?:;\s*[A-Za-z0-9_]+=[^;=\n\r]+)*;?\s*$`.  The `fuel` argument only makes
the recursion structural: every recursive step consumes the separator `;`
plus at least a three-character pair from the list, so a fuel of one more
than the list length can never run out. -/
def cookieTailF : Nat → List Char → Bool
  | 0, _ => false
  | fuel + 1, ';' :: rest =>
    (match parsePair (rest.dropWhile isPySpace) with
     | some r => cookieTailF fuel r
     | none => rest.all isPySpace)
  | _ + 1, l => l.all isPySpace

/-- Embeds a full match of `COOKIE_FORMAT_REGEX =
re.compile(r"^\s*[A-Za-z0-9_]+=[^;=\n\r]+(?:;\s*[A-Za-z0-9_]+=[^;=\n\r]+)*;?\s*$")`. -/
def cookieFormat (l : List Char) : Bool :=
  match parsePair (l.dropWhile isPySpace) with
  | some r => cookieTailF (r.length + 1) r
  | none => false

/-- Embeds the Python substring test `pat in s`. -/
def containsSub (pat : List Char) : List Char → Bool
  | [] => pat.isEmpty
  | c :: rest => pat.isPrefixOf (c :: rest) || containsSub pat rest

/-- The literal substring `"c_user="` required in every cookie. -/
def cUserPat : List Char := "c_user=".toList

/-- The literal substring `"xs="` required in every cookie. -/
def xsPat : List Char := "xs=".toList

/-- Embeds `validate_cookie` of `fbdocbotx.py`; `none` models `(True, "")`
and each `some` models one of the four `(False, reason)` returns, in source
order: empty after strip, length below 20, missing required substrings,
structural regex mismatch. -/
def validate_cookie (cookie : List Char) : Option CookieErr :=
  let c := pyStrip cookie
  if c.isEmpty then some .empty
  else if c.length < 20 then some .tooShort
  else if !containsSub cUserPat c || !containsSub xsPat c then some .missingKeys
  else if !cookieFormat c then some .badFormat
  else none

/-- Helper for `validate_cookies`, 1-based index as in the source. -/
def validateCookiesAux (k : Nat) : List (List Char) → Option ParseErr
  | [] => none
  | c :: rest =>
    match validate_cookie c with
    | some ce => some (.invalidCookie k ce)
    | none => validateCookiesAux (k + 1) rest

/-- Embeds `validate_cookies` of `fbdocbotx.py`. -/
def validate_cookies (cookies : List (List Char)) : Option ParseErr :=
  if cookies.isEmpty then some .emptyCookies
  else validateCookiesAux 1 cookies

/-- Embeds the dataclass `ParsedInput` of `fbdocbotx.py`. -/
structure ParsedInput where
  uids : List (List Char)
  passwords : List (List Char)
  cookies : List (List Char)
deriving DecidableEq

deriving instance DecidableEq for Except

/-- Embeds lines 374-394 of `parse_instant_message`: the per-field checks in
source order (UID, password, cookie), then the chained length comparison
`len(uids) == len(passwords) == len(cookies)`, then success. -/
def validate_parsed (uids passwords cookies : List (List Char)) :
    Except ParseErr ParsedInput :=
  match validate_uids uids with
  | some e => .error e
  | none =>
    match validate_passwords passwords with
    | some e => .error e
    | none =>
      match validate_cookies cookies with
      | some e => .error e
      | none =>
        if !(uids.length = passwords.length ∧ passwords.length = cookies.length : Bool)
        then .error (.countMismatch uids.length passwords.length cookies.length)
        else .ok ⟨uids, passwords, cookies⟩

/-- Embeds the line list of `parse_instant_message`:
`[ln.strip() for ln in text.splitlines() if ln.strip()]`. -/
def linesOf (text : List Char) : List (List Char) :=
  ((splitlines text).map pyStrip).filter (fun l => !l.isEmpty)

/-- Embeds `parse_instant_message` of `fbdocbotx.py`: fewer than three
non-empty stripped lines is `InsufficientLines`; otherwise exactly the first
three lines are tokenized and validated. -/
def parse_instant_message (text : List Char) : Except ParseErr ParsedInput :=
  let lines := linesOf text
  if lines.length < 3 then .error .insufficientLines
  else
    validate_parsed (split_tokens (lines.getD 0 []))
      (split_tokens (lines.getD 1 [])) (split_tokens (lines.getD 2 []))

/-- Embeds `is_control_reset_text` of `fbdocbotx.py`: membership of the text
in the set of the five control strings. -/
def is_control_reset_text (t : List Char) : Bool :=
  t = "🚀 Mulai Ulang".toList || t = "❌ Batal".toList || t = "Start".toList ||
    t = "Batal".toList || t = "/start".toList

/-- Embeds the guard condition of `ask_uid_handler`:
`not has_delimiter(raw) and len(raw.split()) > 1`. -/
def uid_guard (raw : List Char) : Bool :=
  !has_delimiter raw && decide (1 < (pySplit raw).length)

/-- Outcomes of the UID step of the manual flow, one per reply branch of
`ask_uid_handler`: session cancel, the delimiter-guard rejection, a
validator rejection (the handler stays in `ASK_UID`), or acceptance of the
token list stored into `user_data["uids"]`. -/
inductive UidStepResult where
  | cancelled
  | missingDelimiter
  | invalid (e : ParseErr)
  | accepted (uids : List (List Char))
deriving DecidableEq

/-- Embeds the input-processing logic of `ask_uid_handler`: strip the message
text, short-circuit on control texts, apply the delimiter guard, tokenize and
validate. -/
def ask_uid_step (text : List Char) : UidStepResult :=
  let raw := pyStrip text
  if is_control_reset_text raw then .cancelled
  else if uid_guard raw then .missingDelimiter
  else
    match validate_uids (split_tokens raw) with
    | some e => .invalid e
    | none => .accepted (split_tokens raw)

/-- Characters of the regex class `[A-Za-z0-9_-]` (filenames). -/
def isFilenameChar (c : Char) : Bool :=
  c.isAlphanum || c = '_' || c = '-'

/-- Embeds a full match of `FILENAME_REGEX = re.compile(r"^[A-Za-z0-9_-]{1,50}$")`. -/
def filename_matches (s : List Char) : Bool :=
  1 ≤ s.length && s.length ≤ 50 && s.all isFilenameChar

/-- Embeds `validate_filename_no_ext` of `fbdocbotx.py`; `true` models
`(True, "")` (the empty string is allowed and means the default name). -/
def validate_filename_no_ext (raw : List Char) : Bool :=
  let s := pyStrip raw
  if s.isEmpty then true
  else filename_matches s

/-- Embeds `build_filename` of `fbdocbotx.py`.  The parameter `now_ts` stands
for the environment-supplied string `datetime.now().strftime("%Y%m%d_%H%M%S")`. -/
def build_filename (now_ts raw : List Char) : List Char :=
  let s := pyStrip raw
  if s.isEmpty then "facebook_accounts_".toList ++ now_ts ++ ".xlsx".toList
  else s ++ ".xlsx".toList

/-- Embeds the Python three-argument `zip`: pairs positionally and stops at the
shortest of the three lists. -/
def zip3 {α β γ : Type} : List α → List β → List γ → List (α × β × γ)
  | a :: as, b :: bs, c :: cs => (a, b, c) :: zip3 as bs cs
  | _, _, _ => []

/-- Cell grid of the single worksheet `build_xlsx_file` creates: the sheet
title (`ws.title = "DATA"`) and the appended rows.  Fonts, fills, borders,
column widths, freeze panes and the autofilter are styling only and carry no
cell data, so they are not modelled. -/
structure Xlsx where
  sheetTitle : List Char
  rows : List (List (List Char))
deriving DecidableEq

/-- Embeds `build_xlsx_file` of `fbdocbotx.py`: append the header row
`["UID", "PASSWORD", "COOKIE"]`, then one row per element of
`zip(data.uids, data.passwords, data.cookies)`. -/
def build_xlsx_file (data : ParsedInput) : Xlsx :=
  { sheetTitle := "DATA".toList
    rows := ["UID".toList, "PASSWORD".toList, "COOKIE".toList] ::
      (zip3 data.uids data.passwords data.cookies).map
        (fun x => [x.1, x.2.1, x.2.2]) }

namespace V0

/-- Embeds `split_tokens` of `fbdocbotx_Version0.py` (same `SPLIT_REGEX`). -/
def split_tokens (text : List Char) : List (List Char) :=
  (((reSplit (pyStrip text)).map pyStrip).filter (fun t => !t.isEmpty))

/-- Helper for `V0.validate_uids`, 1-based index. -/
def validateUidsAux (k : Nat) : List (List Char) → Option ParseErr
  | [] => none
  | u :: rest =>
    if !isValidUid u then some (.invalidUid k u)
    else validateUidsAux (k + 1) rest

/-- Embeds `validate_uids` of `fbdocbotx_Version0.py`. -/
def validate_uids (uids : List (List Char)) : Option ParseErr :=
  if uids.isEmpty then some .emptyUids
  else validateUidsAux 1 uids

/-- Helper for `V0.validate_passwords`, 1-based index. -/
def validatePasswordsAux (k : Nat) : List (List Char) → Option ParseErr
  | [] => none
  | p :: rest =>
    if !isValidPassword p then some (.invalidPassword k)
    else validatePasswordsAux (k + 1) rest

/-- Embeds `validate_passwords` of `fbdocbotx_Version0.py`. -/
def validate_passwords (passwords : List (List Char)) : Option ParseErr :=
  if passwords.isEmpty then some .emptyPasswords
  else validatePasswordsAux 1 passwords

/-- Embeds `validate_cookie` of `fbdocbotx_Version0.py` (same regexes and
rule order as the current module). -/
def validate_cookie (cookie : List Char) : Option CookieErr :=
  let c := pyStrip cookie
  if c.isEmpty then some .empty
  else if c.length < 20 then some .tooShort
  else if !containsSub cUserPat c || !containsSub xsPat c then some .missingKeys
  else if !cookieFormat c then some .badFormat
  else none

/-- Helper for `V0.validate_cookies`, 1-based index. -/
def validateCookiesAux (k : Nat) : List (List Char) → Option ParseErr
  | [] => none
  | c :: rest =>
    match validate_cookie c with
    | some ce => some (.invalidCookie k ce)
    | none => validateCookiesAux (k + 1) rest

/-- Embeds `validate_cookies` of `fbdocbotx_Version0.py`. -/
def validate_cookies (cookies : List (List Char)) : Option ParseErr :=
  if cookies.isEmpty then some .emptyCookies
  else validateCookiesAux 1 cookies

/-- Embeds `parse_instant_message` of `fbdocbotx_Version0.py`, written from
the source text of that file itself (lines 361-394 there). -/
def parse_instant_message (text : List Char) : Except ParseErr ParsedInput :=
  let lines := ((splitlines text).map pyStrip).filter (fun l => !l.isEmpty)
  if lines.length < 3 then .error .insufficientLines
  else
    let uids := split_tokens (lines.getD 0 [])
    let passwords := split_tokens (lines.getD 1 [])
    let cookies := split_tokens (lines.getD 2 [])
    match validate_uids uids with
    | some e => .error e
    | none =>
      match validate_passwords passwords with
      | some e => .error e
      | none =>
        match validate_cookies cookies with
        | some e => .error e
        | none =>
          if !(uids.length = passwords.length ∧ passwords.length = cookies.length : Bool)
          then .error (.countMismatch uids.length passwords.length cookies.length)
          else .ok ⟨uids, passwords, cookies⟩

end V0

/-! ### Helper lemmas -/

theorem splitRunsAux_nosep (p : Char → Bool) (l : List Char) :
    ∀ acc, (∀ c ∈ l, p c = false) → (splitRunsAux p l acc).length ≤ 1 := by
  induction l with
  | nil => intro acc _; unfold splitRunsAux; split <;> simp
  | cons c rest ih =>
    intro acc h
    have hc : p c = false := h c (by simp)
    unfold splitRunsAux
    rw [if_neg (by simp [hc])]
    exact ih (c :: acc) (fun d hd => h d (by simp [hd]))

theorem pySplit_short (raw : List Char) (h : has_delimiter raw = false) :
    (pySplit raw).length ≤ 1 := by
  refine splitRunsAux_nosep isPySpace raw [] ?_
  intro c hc
  have hd : isDelim c = false := by
    have := List.any_eq_false.mp h c hc
    simpa using this
  simp only [isDelim, Bool.or_eq_false_iff] at hd
  exact hd.2

theorem uid_guard_false (raw : List Char) : uid_guard raw = false := by
  unfold uid_guard
  cases hd : has_delimiter raw with
  | true => simp
  | false =>
    have hle := pySplit_short raw hd
    simp [Nat.not_lt.mpr hle]

theorem dropWhile_of_forall_false {p : Char → Bool} (l : List Char)
    (h : ∀ c ∈ l, p c = false) : l.dropWhile p = l := by
  cases l with
  | nil => rfl
  | cons c rest =>
    rw [List.dropWhile_cons, if_neg (by simp [h c (by simp)])]

theorem pyStrip_of_nodelim (t : List Char)
    (h : ∀ c ∈ t, isDelim c = false) : pyStrip t = t := by
  have hs : ∀ c ∈ t, isPySpace c = false := by
    intro c hc
    have := h c hc
    simp only [isDelim, Bool.or_eq_false_iff] at this
    exact this.2
  unfold pyStrip
  rw [dropWhile_of_forall_false t hs,
    dropWhile_of_forall_false t.reverse (fun c hc => hs c (List.mem_reverse.mp hc)),
    List.reverse_reverse]

theorem reSplitAux_nodelim (l : List Char) :
    ∀ (acc : List Char) (b : Bool), (∀ c ∈ acc, isDelim c = false) →
      ∀ t ∈ reSplitAux l acc b, ∀ c ∈ t, isDelim c = false := by
  induction l with
  | nil =>
    intro acc b hacc t ht c hc
    unfold reSplitAux at ht
    have : t = acc.reverse := by simpa using ht
    subst this
    exact hacc c (List.mem_reverse.mp hc)
  | cons a rest ih =>
    intro acc b hacc t ht c hc
    unfold reSplitAux at ht
    cases ha : isDelim a with
    | true =>
      rw [if_pos (by simp [ha])] at ht
      cases b with
      | true => exact ih [] true (by simp) t (by simpa using ht) c hc
      | false =>
        simp only [Bool.false_eq_true, if_false] at ht
        rcases List.mem_cons.mp ht with h1 | h1
        · subst h1
          exact hacc c (List.mem_reverse.mp hc)
        · exact ih [] true (by simp) t h1 c hc
    | false =>
      rw [if_neg (by simp [ha])] at ht
      refine ih (a :: acc) false ?_ t ht c hc
      intro d hd
      rcases List.mem_cons.mp hd with h1 | h1
      · subst h1; exact ha
      · exact hacc d h1

theorem map_fix_of_id (f : List Char → List Char) (xs : List (List Char))
    (h : ∀ t ∈ xs, f t = t) : xs.map f = xs := by
  induction xs with
  | nil => rfl
  | cons t ts ih =>
    rw [List.map_cons, h t (by simp), ih (fun u hu => h u (by simp [hu]))]

theorem reSplitAux_filter (l : List Char) :
    ∀ (acc : List Char) (b : Bool), (b = true → acc = []) →
      (reSplitAux l acc b).filter (fun t => !t.isEmpty) =
        splitRunsAux isDelim l acc := by
  induction l with
  | nil =>
    intro acc b _
    unfold reSplitAux splitRunsAux
    cases acc <;> simp
  | cons c rest ih =>
    intro acc b hb
    cases hc : isDelim c with
    | true =>
      cases b with
      | true =>
        have hacc : acc = [] := hb rfl
        subst hacc
        simp only [reSplitAux, splitRunsAux, hc, if_true, List.isEmpty_nil]
        exact ih [] true (fun _ => rfl)
      | false =>
        cases acc with
        | nil =>
          simp only [reSplitAux, splitRunsAux, hc, if_true, Bool.false_eq_true,
            if_false, List.isEmpty_nil, List.reverse_nil, List.filter_cons]
          simpa using ih [] true (fun _ => rfl)
        | cons a as =>
          simp only [reSplitAux, splitRunsAux, hc, if_true, Bool.false_eq_true,
            if_false, List.isEmpty_cons, List.filter_cons]
          rw [ih [] true (fun _ => rfl)]
          simp
    | false =>
      simp only [reSplitAux, splitRunsAux, hc, Bool.false_eq_true, if_false]
      exact ih (c :: acc) false (by simp)

theorem reSplit_eq_splitRuns (l : List Char) :
    ((reSplit l).map pyStrip).filter (fun t => !t.isEmpty) =
      splitRunsAux isDelim l [] := by
  unfold reSplit
  rw [map_fix_of_id pyStrip _
    (fun t ht => pyStrip_of_nodelim t (reSplitAux_nodelim l [] false (by simp) t ht))]
  exact reSplitAux_filter l [] false (by simp)

theorem splitRunsAux_all_delim (p : Char → Bool) (l : List Char) :
    ∀ acc, (∀ c ∈ l, p c = true) →
      splitRunsAux p l acc = if acc.isEmpty then [] else [acc.reverse] := by
  induction l with
  | nil => intro acc _; rfl
  | cons c rest ih =>
    intro acc h
    have hc : p c = true := h c (by simp)
    unfold splitRunsAux
    rw [if_pos (by simp [hc])]
    have hrest : ∀ d ∈ rest, p d = true := fun d hd => h d (by simp [hd])
    cases hacc : acc with
    | nil => simp [ih [] hrest]
    | cons a as => simp [ih [] hrest]

theorem splitRunsAux_append_delim (p : Char → Bool) (l : List Char) :
    ∀ (trail acc : List Char), (∀ c ∈ trail, p c = true) →
      splitRunsAux p (l ++ trail) acc = splitRunsAux p l acc := by
  induction l with
  | nil =>
    intro trail acc h
    rw [List.nil_append, splitRunsAux_all_delim p trail acc h]
    rfl
  | cons c rest ih =>
    intro trail acc h
    rw [List.cons_append]
    cases hc : p c with
    | true =>
      cases acc with
      | nil =>
        simp only [splitRunsAux, hc, if_true, List.isEmpty_nil]
        exact ih trail [] h
      | cons a as =>
        simp only [splitRunsAux, hc, if_true, List.isEmpty_cons]
        simp only [Bool.false_eq_true, if_false]
        rw [ih trail [] h]
    | false =>
      simp only [splitRunsAux, hc, Bool.false_eq_true, if_false]
      exact ih trail (c :: acc) h

theorem splitRunsAux_dropWhile (p q : Char → Bool)
    (hq : ∀ c, q c = true → p c = true) (l : List Char) :
    splitRunsAux p (l.dropWhile q) [] = splitRunsAux p l [] := by
  induction l with
  | nil => rfl
  | cons c rest ih =>
    rw [List.dropWhile_cons]
    cases hc : q c with
    | true =>
      rw [if_pos (by simp [hc]), ih]
      have hstep : splitRunsAux p (c :: rest) [] = splitRunsAux p rest [] := by
        conv_lhs => unfold splitRunsAux
        rw [if_pos (by simp [hq c hc]), if_pos (by simp)]
      rw [hstep]
    | false => rw [if_neg (by simp [hc])]

theorem split_tokens_eq_splitRuns (text : List Char) :
    split_tokens text = splitRuns isDelim text := by
  unfold split_tokens splitRuns
  rw [reSplit_eq_splitRuns (pyStrip text)]
  set m := text.dropWhile isPySpace with hm
  have hsplit : m = pyStrip text ++ (m.reverse.takeWhile isPySpace).reverse := by
    unfold pyStrip
    rw [← hm, ← List.reverse_append, List.takeWhile_append_dropWhile,
      List.reverse_reverse]
  have htrail : ∀ c ∈ (m.reverse.takeWhile isPySpace).reverse, isDelim c = true := by
    intro c hc
    have hsp : isPySpace c = true :=
      List.mem_takeWhile_imp (List.mem_reverse.mp hc)
    simp [isDelim, hsp]
  calc splitRunsAux isDelim (pyStrip text) []
      = splitRunsAux isDelim (pyStrip text ++ (m.reverse.takeWhile isPySpace).reverse) [] :=
        (splitRunsAux_append_delim isDelim (pyStrip text) _ [] htrail).symm
    _ = splitRunsAux isDelim m [] := by rw [← hsplit]
    _ = splitRunsAux isDelim text [] := by
        rw [hm]
        exact splitRunsAux_dropWhile isDelim isPySpace
          (fun c hc => by simp [isDelim, hc]) text

theorem splitRunsAux_flatten (p : Char → Bool) (l : List Char) :
    ∀ acc, (splitRunsAux p l acc).flatten = acc.reverse ++ l.filter (fun c => !p c) := by
  induction l with
  | nil =>
    intro acc
    unfold splitRunsAux
    cases acc <;> simp
  | cons c rest ih =>
    intro acc
    unfold splitRunsAux
    cases hc : p c with
    | true =>
      rw [if_pos (by simp [hc])]
      cases hacc : acc with
      | nil => simp [ih, List.filter_cons, hc]
      | cons a as => simp [ih, List.filter_cons, hc]
    | false =>
      rw [if_neg (by simp [hc])]
      rw [ih (c :: acc)]
      simp [List.filter_cons, hc]

theorem splitRunsAux_parts (p : Char → Bool) (l : List Char) :
    ∀ acc, (∀ c ∈ acc, p c = false) →
      ∀ t ∈ splitRunsAux p l acc, t ≠ [] ∧ ∀ c ∈ t, p c = false := by
  induction l with
  | nil =>
    intro acc hacc t ht
    unfold splitRunsAux at ht
    cases hcc : acc with
    | nil => subst hcc; simp at ht
    | cons a as =>
      subst hcc
      simp only [List.isEmpty_cons, if_neg] at ht
      rw [if_neg (by simp)] at ht
      have : t = (a :: as).reverse := by simpa using ht
      subst this
      constructor
      · simp
      · intro c hc; exact hacc c (List.mem_reverse.mp hc)
  | cons c rest ih =>
    intro acc hacc t ht
    unfold splitRunsAux at ht
    cases hc : p c with
    | true =>
      rw [if_pos (by simp [hc])] at ht
      cases hcc : acc with
      | nil =>
        subst hcc
        rw [if_pos (by simp)] at ht
        exact ih [] (by simp) t ht
      | cons a as =>
        subst hcc
        rw [if_neg (by simp)] at ht
        rcases List.mem_cons.mp ht with h1 | h1
        · subst h1
          refine ⟨by simp, ?_⟩
          intro d hd; exact hacc d (List.mem_reverse.mp hd)
        · exact ih [] (by simp) t h1
    | false =>
      rw [if_neg (by simp [hc])] at ht
      refine ih (c :: acc) ?_ t ht
      intro d hd
      rcases List.mem_cons.mp hd with h1 | h1
      · subst h1; exact hc
      · exact hacc d h1

/-! ### Claims -/

/-- C1 counterexample: the submission `"12345678"` contains no delimiter
character, yet the UID step does not fail with the MissingDelimiter reason:
it tokenizes the string and accepts it as a single valid UID, contradicting
the claim that every delimiter-free submission is rejected. -/
theorem c1_counterexample :
    has_delimiter "12345678".toList = false ∧
    ask_uid_step "12345678".toList = UidStepResult.accepted ["12345678".toList] := by
  decide

/-- C1 (amended): the MissingDelimiter guard of `ask_uid_handler` can never
fire, because its condition also demands more than one whitespace-separated
token, which is impossible for a string without delimiter characters; hence
no submission is rejected with MissingDelimiter, and in particular a
delimiter-free submission proceeds to tokenization and validation. -/
theorem c1_guard_unreachable :
    ∀ text : List Char, uid_guard (pyStrip text) = false ∧
      ask_uid_step text ≠ UidStepResult.missingDelimiter := by
  intro text
  refine ⟨uid_guard_false _, ?_⟩
  simp only [ask_uid_step, uid_guard_false, Bool.false_eq_true, if_false]
  split
  · simp
  · split <;> simp

/-- C1 witness: the amended theorem evaluated at a concrete input. -/
theorem c1_guard_unreachable_witness :
    uid_guard (pyStrip "9876543210123".toList) = false :=
  (c1_guard_unreachable "9876543210123".toList).1

/-- C2 counterexample: on the example input of the spec the parser does not
succeed (the first cookie token `"c_user=1;xs=a;"` has only 14 characters,
below the 20-character minimum), refuting the claimed success with a triple
of length 2. -/
theorem c2_counterexample :
    (parse_instant_message
      "12345678 87654321\nSecret1 Secret2\nc_user=1;xs=a; c_user=2;xs=b;".toList).isOk
      = false := by
  decide

/-- C2 (amended): on the example input of the spec the parser fails with the
cookie error for element 1 and the minimum-length reason, because
`"c_user=1;xs=a;"` is 14 characters long, below the 20-character minimum;
no Credential Triple is produced. -/
theorem c2_example_fails_too_short :
    parse_instant_message
      "12345678 87654321\nSecret1 Secret2\nc_user=1;xs=a; c_user=2;xs=b;".toList =
      Except.error (ParseErr.invalidCookie 1 CookieErr.tooShort) := by
  decide

theorem zip3_length {α β γ : Type} :
    ∀ (as : List α) (bs : List β) (cs : List γ),
      (zip3 as bs cs).length = min as.length (min bs.length cs.length) := by
  intro as
  induction as with
  | nil => intro bs cs; simp [zip3]
  | cons a as ih =>
    intro bs cs
    cases bs with
    | nil => simp [zip3]
    | cons b bs =>
      cases cs with
      | nil => simp [zip3]
      | cons c cs =>
        simp only [zip3, List.length_cons, ih, Nat.succ_min_succ]

theorem zip3_get? {α β γ : Type} :
    ∀ (as : List α) (bs : List β) (cs : List γ) (i : Nat) (a : α) (b : β) (c : γ),
      as.get? i = some a → bs.get? i = some b → cs.get? i = some c →
      (zip3 as bs cs).get? i = some (a, b, c) := by
  intro as
  induction as with
  | nil => intro bs cs i a b c ha; simp at ha
  | cons x xs ih =>
    intro bs cs i a b c ha hb hc
    cases bs with
    | nil => simp at hb
    | cons y ys =>
      cases cs with
      | nil => simp at hc
      | cons z zs =>
        cases i with
        | zero =>
          simp only [List.get?_cons_zero, Option.some.injEq] at ha hb hc
          subst ha; subst hb; subst hc
          rfl
        | succ n =>
          simp only [List.get?_cons_succ] at ha hb hc
          simpa [zip3] using ih ys zs n a b c ha hb hc

theorem get?_eq_some_getD {α : Type} (d : α) :
    ∀ (l : List α) (i : Nat), i < l.length → l.get? i = some (l.getD i d) := by
  intro l
  induction l with
  | nil => intro i h; simp at h
  | cons a as ih =>
    intro i h
    cases i with
    | zero => rfl
    | succ n =>
      simp only [List.get?_cons_succ, List.getD_cons_succ]
      exact ih n (by simpa using h)

theorem getD_congr_of_take (d : List Char) (l1 l2 : List (List Char)) (i : Nat)
    (hi : i < 3) (h : l1.take 3 = l2.take 3) : l1.getD i d = l2.getD i d := by
  rw [List.getD_eq_get?, List.getD_eq_get?, ← List.get?_take hi, ← List.get?_take (l := l2) hi, h]

/-- C6: tokenization splits any raw string into the maximal runs of
non-delimiter characters (comma and whitespace delimit; trimming and
empty-token dropping leave exactly those runs); concatenating the tokens in
order yields the non-delimiter characters of the input in input order (so
order is preserved and nothing is deduplicated), every token is non-empty
and delimiter-free, and the worked example holds. -/
theorem c6_tokenization_contract :
    split_tokens "a, b  c\nd".toList =
      ["a".toList, "b".toList, "c".toList, "d".toList] ∧
    ∀ text : List Char,
      split_tokens text = splitRuns isDelim text ∧
      (split_tokens text).flatten = text.filter (fun c => !isDelim c) ∧
      (split_tokens text).all (fun t => !t.isEmpty && t.all (fun c => !isDelim c)) = true := by
  refine ⟨by decide, ?_⟩
  intro text
  refine ⟨split_tokens_eq_splitRuns text, ?_, ?_⟩
  · rw [split_tokens_eq_splitRuns text]
    simpa using splitRunsAux_flatten isDelim text []
  · rw [split_tokens_eq_splitRuns text, List.all_eq_true]
    intro t ht
    obtain ⟨h1, h2⟩ := splitRunsAux_parts isDelim text [] (by simp) t ht
    simp only [Bool.and_eq_true, Bool.not_eq_true', List.isEmpty_eq_false, List.all_eq_true]
    refine ⟨h1, ?_⟩
    intro c hc
    simp [h2 c hc]

/-- C3: rendering an equal-length triple of size N >= 1 yields the single
sheet "DATA" with N+1 rows of exactly 3 cells each, the header row
["UID", "PASSWORD", "COOKIE"] first, and the data row at position i+1
holding exactly the i-th uid, password and cookie in original order. -/
theorem c3_assembler_layout (d : ParsedInput)
    (h1 : d.uids.length = d.passwords.length)
    (h2 : d.passwords.length = d.cookies.length)
    (h3 : 1 ≤ d.uids.length) :
    (build_xlsx_file d).sheetTitle = "DATA".toList ∧
    (build_xlsx_file d).rows.length = d.uids.length + 1 ∧
    (∀ row ∈ (build_xlsx_file d).rows, row.length = 3) ∧
    (build_xlsx_file d).rows.get? 0 =
      some ["UID".toList, "PASSWORD".toList, "COOKIE".toList] ∧
    ∀ i, i < d.uids.length →
      (build_xlsx_file d).rows.get? (i + 1) =
        some [d.uids.getD i [], d.passwords.getD i [], d.cookies.getD i []] := by
  refine ⟨rfl, ?_, ?_, rfl, ?_⟩
  · simp only [build_xlsx_file, List.length_cons, List.length_map, zip3_length,
      ← h1, ← h2, Nat.min_self]
  · intro row hrow
    simp only [build_xlsx_file, List.mem_cons, List.mem_map] at hrow
    rcases hrow with h | ⟨x, _, rfl⟩
    · subst h; rfl
    · rfl
  · intro i hi
    simp only [build_xlsx_file, List.get?_cons_succ, List.get?_map]
    rw [zip3_get? d.uids d.passwords d.cookies i _ _ _
      (get?_eq_some_getD [] d.uids i hi)
      (get?_eq_some_getD [] d.passwords i (by omega))
      (get?_eq_some_getD [] d.cookies i (by omega))]
    rfl

/-- C3 witness: the layout theorem at a concrete one-record triple. -/
theorem c3_assembler_layout_witness :
    (build_xlsx_file
        ⟨["12345678".toList], ["secret1".toList], ["c_user=9;xs=abcdefghij;".toList]⟩).rows.length
      = 2 :=
  (c3_assembler_layout
    ⟨["12345678".toList], ["secret1".toList], ["c_user=9;xs=abcdefghij;".toList]⟩
    (by decide) (by decide) (by decide)).2.1

/-- C9 (implicit): on a triple with unequal sequence lengths the assembler
still produces a document: exactly min of the three lengths data rows,
pairing the sequences positionally; surplus elements of longer sequences
are dropped silently. -/
theorem c9_assembler_truncates (d : ParsedInput) :
    (build_xlsx_file d).rows.length =
      1 + min d.uids.length (min d.passwords.length d.cookies.length) ∧
    ∀ i, i < min d.uids.length (min d.passwords.length d.cookies.length) →
      (build_xlsx_file d).rows.get? (i + 1) =
        some [d.uids.getD i [], d.passwords.getD i [], d.cookies.getD i []] := by
  constructor
  · simp only [build_xlsx_file, List.length_cons, List.length_map, zip3_length]
    omega
  · intro i hi
    rw [lt_min_iff, lt_min_iff] at hi
    simp only [build_xlsx_file, List.get?_cons_succ, List.get?_map]
    rw [zip3_get? d.uids d.passwords d.cookies i _ _ _
      (get?_eq_some_getD [] d.uids i hi.1)
      (get?_eq_some_getD [] d.passwords i hi.2.1)
      (get?_eq_some_getD [] d.cookies i hi.2.2)]
    rfl

/-- C9 witness: a triple with lengths 2, 1, 3 renders as one header row plus
exactly one data row, built from the first element of each sequence. -/
theorem c9_assembler_truncates_witness :
    (build_xlsx_file
        ⟨["11111111".toList, "22222222".toList], ["p".toList],
          ["c1".toList, "c2".toList, "c3".toList]⟩).rows.length = 2 ∧
    (build_xlsx_file
        ⟨["11111111".toList, "22222222".toList], ["p".toList],
          ["c1".toList, "c2".toList, "c3".toList]⟩).rows.get? 1 =
      some ["11111111".toList, "p".toList, "c1".toList] :=
  ⟨(c9_assembler_truncates
      ⟨["11111111".toList, "22222222".toList], ["p".toList],
        ["c1".toList, "c2".toList, "c3".toList]⟩).1.trans (by decide),
    (c9_assembler_truncates
      ⟨["11111111".toList, "22222222".toList], ["p".toList],
        ["c1".toList, "c2".toList, "c3".toList]⟩).2 0 (by decide)⟩

/-- C4: once the three token sequences are individually valid, instant-mode
validation fails with CountMismatch carrying exactly the three observed
lengths whenever the lengths differ, and succeeds returning the three
sequences unchanged and in order whenever the lengths agree. -/
theorem c4_cross_field_contract (U P C : List (List Char))
    (hU : validate_uids U = none) (hP : validate_passwords P = none)
    (hC : validate_cookies C = none) :
    (¬(U.length = P.length ∧ P.length = C.length) →
      validate_parsed U P C =
        Except.error (ParseErr.countMismatch U.length P.length C.length)) ∧
    ((U.length = P.length ∧ P.length = C.length) →
      validate_parsed U P C = Except.ok ⟨U, P, C⟩) := by
  unfold validate_parsed
  rw [hU, hP, hC]
  constructor
  · intro h
    rw [if_pos (by simp [h])]
  · intro h
    rw [if_neg (by simp [h.1, h.2])]

/-- C4 witness: two valid UIDs against one valid password and one valid
cookie fail with CountMismatch 2 1 1; equal-length variants succeed. -/
theorem c4_cross_field_contract_witness :
    validate_parsed ["11111111".toList, "22222222".toList]
      ["secret1".toList] ["c_user=9;xs=abcdefghij;".toList] =
      Except.error (ParseErr.countMismatch 2 1 1) :=
  (c4_cross_field_contract ["11111111".toList, "22222222".toList]
    ["secret1".toList] ["c_user=9;xs=abcdefghij;".toList]
    (by decide) (by decide) (by decide)).1 (by decide)

/-- C5: a message with fewer than three non-empty stripped lines always
fails with InsufficientLines, whatever the lines hold; and for messages
with at least three such lines the parse result depends only on the first
three lines, so lines beyond the third have no effect. -/
theorem c5_first_three_lines (t1 t2 : List Char) :
    ((linesOf t1).length < 3 →
      parse_instant_message t1 = Except.error ParseErr.insufficientLines) ∧
    (3 ≤ (linesOf t1).length → 3 ≤ (linesOf t2).length →
      (linesOf t1).take 3 = (linesOf t2).take 3 →
      parse_instant_message t1 = parse_instant_message t2) := by
  constructor
  · intro h
    unfold parse_instant_message
    rw [if_pos h]
  · intro h1 h2 htake
    unfold parse_instant_message
    rw [if_neg (Nat.not_lt.mpr h1), if_neg (Nat.not_lt.mpr h2),
      getD_congr_of_take [] (linesOf t1) (linesOf t2) 0 (by omega) htake,
      getD_congr_of_take [] (linesOf t1) (linesOf t2) 1 (by omega) htake,
      getD_congr_of_take [] (linesOf t1) (linesOf t2) 2 (by omega) htake]

theorem validateCookiesAux_first_fail :
    ∀ (cs : List (List Char)) (k i : Nat) (e : CookieErr),
      validateCookiesAux k cs = some (ParseErr.invalidCookie i e) →
      k ≤ i ∧ i - k < cs.length ∧
      validate_cookie (cs.getD (i - k) []) = some e ∧
      ∀ j, j < i - k → validate_cookie (cs.getD j []) = none := by
  intro cs
  induction cs with
  | nil => intro k i e h; simp [validateCookiesAux] at h
  | cons c rest ih =>
    intro k i e h
    unfold validateCookiesAux at h
    cases hc : validate_cookie c with
    | some ce =>
      rw [hc] at h
      simp only [Option.some.injEq, ParseErr.invalidCookie.injEq] at h
      obtain ⟨hik, hce⟩ := h
      subst hik; subst hce
      refine ⟨Nat.le_refl k, by simp, ?_, ?_⟩
      · simpa using hc
      · intro j hj
        exact absurd hj (by omega)
    | none =>
      rw [hc] at h
      obtain ⟨h1, h2, h3, h4⟩ := ih (k + 1) i e h
      have hik : i - k = (i - (k + 1)) + 1 := by omega
      refine ⟨by omega, by simp; omega, ?_, ?_⟩
      · rw [hik]
        simpa using h3
      · intro j hj
        cases j with
        | zero => simpa using hc
        | succ n =>
          simp only [List.getD_cons_succ]
          exact h4 n (by omega)

/-- C7: the parser reports the single first-encountered failure, checking in
the fixed order UID field, password field, cookie field, cross-field count:
a UID error is reported whatever the other fields hold, a password error
only once the UIDs validated, a cookie error only once UIDs and passwords
validated, and the count check comes last; inside the cookie validator the
rules apply in the fixed order empty-after-trim, minimum length 20, required
substrings, structural grammar, and a reported cookie error names the first
failing element, all earlier elements being valid. -/
theorem c7_first_failure_order (U P C : List (List Char)) (c : List Char) :
    (∀ e, validate_uids U = some e →
      validate_parsed U P C = Except.error e) ∧
    (validate_uids U = none → ∀ e, validate_passwords P = some e →
      validate_parsed U P C = Except.error e) ∧
    (validate_uids U = none → validate_passwords P = none →
      ∀ e, validate_cookies C = some e →
      validate_parsed U P C = Except.error e) ∧
    (pyStrip c = [] → validate_cookie c = some CookieErr.empty) ∧
    (pyStrip c ≠ [] → (pyStrip c).length < 20 →
      validate_cookie c = some CookieErr.tooShort) ∧
    (pyStrip c ≠ [] → 20 ≤ (pyStrip c).length →
      (containsSub cUserPat (pyStrip c) && containsSub xsPat (pyStrip c)) = false →
      validate_cookie c = some CookieErr.missingKeys) ∧
    (pyStrip c ≠ [] → 20 ≤ (pyStrip c).length →
      containsSub cUserPat (pyStrip c) = true → containsSub xsPat (pyStrip c) = true →
      cookieFormat (pyStrip c) = false →
      validate_cookie c = some CookieErr.badFormat) ∧
    (∀ i e, validate_cookies C = some (ParseErr.invalidCookie i e) →
      1 ≤ i ∧ i - 1 < C.length ∧
      validate_cookie (C.getD (i - 1) []) = some e ∧
      ∀ j, j < i - 1 → validate_cookie (C.getD j []) = none) := by
  refine ⟨?_, ?_, ?_, ?_, ?_, ?_, ?_, ?_⟩
  · intro e h
    unfold validate_parsed
    rw [h]
  · intro hu e h
    unfold validate_parsed
    rw [hu, h]
  · intro hu hp e h
    unfold validate_parsed
    rw [hu, hp, h]
  · intro h
    simp [validate_cookie, h]
  · intro h1 h2
    simp [validate_cookie, h1, h2]
  · intro h1 h2 h3
    rw [Bool.and_eq_false_iff] at h3
    rcases h3 with h3 | h3 <;> simp [validate_cookie, h1, Nat.not_lt.mpr h2, h3]
  · intro h1 h2 h3 h4 h5
    simp [validate_cookie, h1, Nat.not_lt.mpr h2, h3, h4, h5]
  · intro i e h
    unfold validate_cookies at h
    cases hC : C.isEmpty with
    | true => rw [hC] at h; simp at h
    | false =>
      rw [hC] at h
      simp only [Bool.false_eq_true, if_false] at h
      exact validateCookiesAux_first_fail C 1 i e h

/-- C7 witness: with an invalid UID and an invalid cookie present at once,
the reported failure is the UID one, per the fixed field order. -/
theorem c7_first_failure_order_witness :
    validate_parsed ["abc".toList] ["secret1".toList] ["bad".toList] =
      Except.error (ParseErr.invalidUid 1 "abc".toList) :=
  (c7_first_failure_order ["abc".toList] ["secret1".toList] ["bad".toList] []).1
    (ParseErr.invalidUid 1 "abc".toList) (by decide)

/-- C8: an all-whitespace or empty filename submission is accepted and the
suggested name is the purpose prefix `facebook_accounts_` followed by the
current local timestamp and `.xlsx`; a non-empty trimmed submission
matching `[A-Za-z0-9_-]{1,50}` is accepted and gets `.xlsx` appended; any
other non-empty submission is rejected as an invalid filename. -/
theorem c8_filename_rule (ts raw : List Char) :
    (pyStrip raw = [] → validate_filename_no_ext raw = true ∧
      build_filename ts raw = "facebook_accounts_".toList ++ ts ++ ".xlsx".toList) ∧
    (pyStrip raw ≠ [] → filename_matches (pyStrip raw) = true →
      validate_filename_no_ext raw = true ∧
      build_filename ts raw = pyStrip raw ++ ".xlsx".toList) ∧
    (pyStrip raw ≠ [] → filename_matches (pyStrip raw) = false →
      validate_filename_no_ext raw = false) := by
  refine ⟨?_, ?_, ?_⟩
  · intro h
    constructor
    · simp [validate_filename_no_ext, h]
    · simp [build_filename, h]
  · intro h1 h2
    constructor
    · simp [validate_filename_no_ext, h1, h2]
    · simp [build_filename, h1]
  · intro h1 h2
    simp [validate_filename_no_ext, h1, h2]

/-- C8 witness: the filename rule applied to a whitespace-only submission
with a fixed timestamp, synthesizing the default name. -/
theorem c8_filename_rule_witness :
    validate_filename_no_ext "  ".toList = true ∧
    build_filename "20260101_120000".toList "  ".toList =
      "facebook_accounts_".toList ++ "20260101_120000".toList ++ ".xlsx".toList :=
  (c8_filename_rule "20260101_120000".toList "  ".toList).1 (by decide)

theorem v0_split_tokens_eq : V0.split_tokens = split_tokens := rfl

theorem v0_validate_cookie_eq : V0.validate_cookie = validate_cookie := rfl

theorem v0_uids_aux_eq (l : List (List Char)) :
    ∀ k, V0.validateUidsAux k l = validateUidsAux k l := by
  induction l with
  | nil => intro k; rfl
  | cons u rest ih =>
    intro k
    simp only [V0.validateUidsAux, validateUidsAux]
    rw [ih (k + 1)]

theorem v0_validate_uids_eq : V0.validate_uids = validate_uids := by
  funext l
  unfold V0.validate_uids validate_uids
  rw [v0_uids_aux_eq l 1]

theorem v0_pwds_aux_eq (l : List (List Char)) :
    ∀ k, V0.validatePasswordsAux k l = validatePasswordsAux k l := by
  induction l with
  | nil => intro k; rfl
  | cons p rest ih =>
    intro k
    simp only [V0.validatePasswordsAux, validatePasswordsAux]
    rw [ih (k + 1)]

theorem v0_validate_passwords_eq : V0.validate_passwords = validate_passwords := by
  funext l
  unfold V0.validate_passwords validate_passwords
  rw [v0_pwds_aux_eq l 1]

theorem v0_cookies_aux_eq (l : List (List Char)) :
    ∀ k, V0.validateCookiesAux k l = validateCookiesAux k l := by
  induction l with
  | nil => intro k; rfl
  | cons c rest ih =>
    intro k
    simp only [V0.validateCookiesAux, validateCookiesAux, v0_validate_cookie_eq]
    rw [ih (k + 1)]

theorem v0_validate_cookies_eq : V0.validate_cookies = validate_cookies := by
  funext l
  unfold V0.validate_cookies validate_cookies
  rw [v0_cookies_aux_eq l 1]

/-- C10 (implicit): the instant-mode parser of the current module and the
one of the retained older module are extensionally equal: on every input
text they return the same outcome, error or Credential Triple. -/
theorem c10_versions_agree :
    ∀ text : List Char,
      parse_instant_message text = V0.parse_instant_message text := by
  intro text
  unfold parse_instant_message V0.parse_instant_message validate_parsed linesOf
  rw [v0_split_tokens_eq, v0_validate_uids_eq, v0_validate_passwords_eq,
    v0_validate_cookies_eq]

/-- C5 witness: a two-line message fails with InsufficientLines, and adding
a fourth line to a three-line message leaves the parse result unchanged. -/
theorem c5_first_three_lines_witness :
    parse_instant_message "11111111\nsecret1".toList =
      Except.error ParseErr.insufficientLines ∧
    parse_instant_message "11111111\nsecret1\nc_user=9;xs=abcdefghij;\nIGNORED".toList =
      parse_instant_message "11111111\nsecret1\nc_user=9;xs=abcdefghij;".toList :=
  ⟨(c5_first_three_lines "11111111\nsecret1".toList []).1 (by decide),
    (c5_first_three_lines
      "11111111\nsecret1\nc_user=9;xs=abcdefghij;\nIGNORED".toList
      "11111111\nsecret1\nc_user=9;xs=abcdefghij;".toList).2
      (by decide) (by decide) (by decide)⟩
